import Mathlib

/-!
Verification development for gotcpspy (src/gotcpspy.go), a transparent TCP
relay that copies bytes in both directions between an accepted inbound
connection and a dialed outbound connection, while writing a shared
human-readable text log and one raw binary log per direction.

The Go source is shallowly embedded below.  IO-driven loops are embedded as
pure functions from the sequence of results the environment would return
(the successive results of `conn.Read`, the chunks received on a logger
channel, the number of completion signals that ever arrive) to the trace of
observable events the code performs, in program order.
-/

namespace GoTcpSpy

/-- Bytes are modelled as natural numbers; their arithmetic is never used,
only equality, so this is faithful. -/
abbrev Byte := Nat

/-! ## Relay direction: `pass_through` (gotcpspy.go lines 87-115)

One call of `c.from.Read(b)` either fails (any error, including orderly
close) or yields a chunk of `n ≥ 0` bytes.  The loop body is driven by the
predetermined sequence of read results the connection would deliver; the
loop stops at the first failing read, so later entries are never consumed.
An empty trailing behaviour (list exhausted without a failure) models a
loop that is still blocked in `Read`. -/

inductive ReadResult where
  | ok (b : List Byte)
  | fail
deriving DecidableEq

def ReadResult.isFail : ReadResult → Bool
  | .ok _ => false
  | .fail => true

/-- Observable actions of one relay direction, in program order:
sends on the shared text-logger channel (`logReceived`, `logHexDump`,
`logSent`, `logDisconnected`), the send on the private binary-logger
channel (`binChunk`), the write to the opposite connection (`writeOut`),
the two closes and the completion signal on `ack`. -/
inductive PTEvent where
  | logReceived (packet offset n : Nat)
  | logHexDump (b : List Byte)
  | binChunk (b : List Byte)
  | writeOut (b : List Byte)
  | logSent (packet : Nat)
  | logDisconnected
  | closeFrom
  | closeTo
  | ackSignal
deriving DecidableEq

/-- The `for` loop of `pass_through` (lines 94-111), with the running
`offset` and `packet_n` accumulators.  A failing read logs the
disconnect line and breaks; a read of `n > 0` bytes emits, in source
order: the "Received" line (with the pre-update counter and offset), the
hex dump, the chunk to the binary logger, the write to the write-side
connection, the "Sent" line, then continues with `offset + n` and
`packet_n + 1`.  A read of zero bytes without error emits nothing and
continues unchanged. -/
def pass_through_loop : List ReadResult → Nat → Nat → List PTEvent
  | [], _, _ => []
  | .fail :: _, _, _ => [.logDisconnected]
  | .ok b :: rest, offset, packet_n =>
    if 0 < b.length then
      .logReceived packet_n offset b.length :: .logHexDump b :: .binChunk b ::
        .writeOut b :: .logSent packet_n ::
          pass_through_loop rest (offset + b.length) (packet_n + 1)
    else
      pass_through_loop rest offset packet_n

/-- Whole body of `pass_through` (lines 87-115): the loop from
`offset = 0`, `packet_n = 0`; when the loop has exited (a read failed),
`c.from.Close()`, `c.to.Close()` and the completion signal `c.ack <- true`
follow.  If no read ever fails the loop never exits and the closing
events never happen. -/
def pass_through (reads : List ReadResult) : List PTEvent :=
  pass_through_loop reads 0 0 ++
    (if reads.any ReadResult.isFail then [.closeFrom, .closeTo, .ackSignal] else [])

/-- Payloads written to the write-side connection, in order. -/
def writePayloads (evts : List PTEvent) : List (List Byte) :=
  evts.filterMap fun e => match e with
    | .writeOut b => some b
    | _ => none

/-- Chunks sent to the direction's private binary sink, in order. -/
def binPayloads (evts : List PTEvent) : List (List Byte) :=
  evts.filterMap fun e => match e with
    | .binChunk b => some b
    | _ => none

/-- Content of one "Received" text-log line: the packet counter, the
cumulative byte offset and the chunk length that were formatted into it. -/
structure RecvRec where
  packet : Nat
  offset : Nat
  nbytes : Nat
deriving DecidableEq

/-- The "Received" lines of a trace, in order. -/
def receivedRecords (evts : List PTEvent) : List RecvRec :=
  evts.filterMap fun e => match e with
    | .logReceived p o n => some ⟨p, o, n⟩
    | _ => none

/-- The packet numbers of the "Sent" lines of a trace, in order. -/
def sentPackets (evts : List PTEvent) : List Nat :=
  evts.filterMap fun e => match e with
    | .logSent p => some p
    | _ => none

/-- The nonempty chunks the direction relays: successful reads of `n > 0`
bytes strictly before the first failing read. -/
def relayedChunks : List ReadResult → List (List Byte)
  | [] => []
  | .fail :: _ => []
  | .ok b :: rest => if 0 < b.length then b :: relayedChunks rest else relayedChunks rest

/-- The byte stream a direction reads, i.e. the concatenation of the
successfully read chunks before the first failing read. -/
def readStream (reads : List ReadResult) : List Byte :=
  (relayedChunks reads).flatten

/-- The "Received" records the loop produces, computed directly from the
read results with the same accumulators, for structural reasoning. -/
def recsAux : List ReadResult → Nat → Nat → List RecvRec
  | [], _, _ => []
  | .fail :: _, _, _ => []
  | .ok b :: rest, offset, packet_n =>
    if 0 < b.length then
      ⟨packet_n, offset, b.length⟩ :: recsAux rest (offset + b.length) (packet_n + 1)
    else
      recsAux rest offset packet_n

/-- Running offsets: `offsetsFrom [n0, n1, ...] off = [off, off + n0, ...]`,
the offset logged before each chunk. -/
def offsetsFrom : List Nat → Nat → List Nat
  | [], _ => []
  | n :: rest, off => off :: offsetsFrom rest (off + n)

/-! ## Log sink: `logger_loop` (gotcpspy.go lines 54-68)

The consumer loop of one log sink, driven by the sequence of chunks that
arrive on its channel.  `f.Write`, `f.Sync` and the deferred `f.Close`
are the observable file actions. -/

inductive FEvent where
  | fwrite (b : List Byte)
  | fsync
  | fclose
deriving DecidableEq

/-- The receive loop of `logger_loop`: a received chunk of length zero
breaks out of the loop, upon which the deferred `f.Close()` runs; a
nonempty chunk is written with `f.Write(b)` then flushed with `f.Sync()`
before the next receive.  An exhausted list models a loop still blocked
in the channel receive. -/
def logger_loop_events : List (List Byte) → List FEvent
  | [] => []
  | b :: rest =>
    if b.length = 0 then [.fclose]
    else .fwrite b :: .fsync :: logger_loop_events rest

/-- The chunk payloads a file-event trace writes, in order. -/
def fileWrites (evts : List FEvent) : List (List Byte) :=
  evts.filterMap fun e => match e with
    | .fwrite b => some b
    | _ => none

/-- The chunks strictly before the first zero-length chunk. -/
def nonemptyPrefixChunks (chunks : List (List Byte)) : List (List Byte) :=
  chunks.takeWhile fun b => !(b.length == 0)

/-! ## Time formatting and log-file names
(gotcpspy.go lines 40-51 and 70-72)

`format_time` embeds `t.Format("2006.01.02-15.04.05")`: each numeric field
zero-padded to the width of the layout element (4 for the year, 2 for the
others), joined with the layout's separators.  The loggers each call
`time.Now()` themselves when they build their file name, so each name
function takes the time observed by that call as a parameter. -/

/-- A wall-clock instant as `time.Time` presents it to the `Format`
layout used here: calendar fields in local time. -/
structure GoTime where
  year : Nat
  month : Nat
  day : Nat
  hour : Nat
  minute : Nat
  second : Nat
deriving DecidableEq

/-- Zero-padding of a decimal number to a minimum width, as Go's
formatting verbs (`%04d`, and the fixed-width layout elements of
`time.Format`) do: never truncating. -/
def zeroPad (w : Nat) (n : Nat) : String :=
  String.mk (List.replicate (w - (toString n).length) '0') ++ toString n

/-- The function `format_time` (lines 70-72): layout `"2006.01.02-15.04.05"`. -/
def format_time (t : GoTime) : String :=
  zeroPad 4 t.year ++ "." ++ zeroPad 2 t.month ++ "." ++ zeroPad 2 t.day ++ "-" ++
    zeroPad 2 t.hour ++ "." ++ zeroPad 2 t.minute ++ "." ++ zeroPad 2 t.second

/-- The file name built by `connection_logger` (lines 40-44):
`fmt.Sprintf("log-%s-%04d-%s-%s.log", format_time(time.Now()), conn_n,
local_info, remote_info)`, where `now` is the instant this logger's own
`time.Now()` call observed. -/
def connection_log_name (now : GoTime) (conn_n : Nat)
    (local_info remote_info : String) : String :=
  "log-" ++ format_time now ++ "-" ++ zeroPad 4 conn_n ++ "-" ++
    local_info ++ "-" ++ remote_info ++ ".log"

/-- The file name built by `binary_logger` (lines 47-51):
`fmt.Sprintf("log-binary-%s-%04d-%s.log", format_time(time.Now()), conn_n,
peer)`. -/
def binary_log_name (now : GoTime) (conn_n : Nat) (peer : String) : String :=
  "log-binary-" ++ format_time now ++ "-" ++ zeroPad 4 conn_n ++ "-" ++
    peer ++ ".log"

/-- The timestamp field embedded in a text-log file name: the 19
characters after the `"log-"` prefix. -/
def textNameStamp (name : String) : String :=
  String.mk ((name.data.drop 4).take 19)

/-- The timestamp field embedded in a binary-log file name: the 19
characters after the `"log-binary-"` prefix. -/
def binNameStamp (name : String) : String :=
  String.mk ((name.data.drop 11).take 19)

/-! ## Connection session: `process_connection` (gotcpspy.go lines 120-156)

After a successful dial the body is straight-line: start the three logger
goroutines, send the "Connected" banner to the text logger, launch the two
`pass_through` goroutines, receive twice from `ack`, send the duration
line to the text logger, then send the empty stop sentinel to all three
loggers.  Each `<-ack` blocks until a direction signals completion, so the
trace is driven by how many completion signals ever arrive (0, 1 or 2):
with fewer than two, the session blocks forever at a `<-ack` and nothing
after that point is ever performed. -/

inductive SEvent where
  | startTextLogger
  | startBinFromLogger
  | startBinToLogger
  | logConnected
  | launchDirection (remoteToLocal : Bool)
  | recvAck
  | logDuration
  | stopText
  | stopBinFrom
  | stopBinTo
deriving DecidableEq

def SEvent.isLaunch : SEvent → Bool
  | .launchDirection _ => true
  | _ => false

def SEvent.isStop : SEvent → Bool
  | .stopText => true
  | .stopBinFrom => true
  | .stopBinTo => true
  | _ => false

def SEvent.isDuration : SEvent → Bool
  | .logDuration => true
  | _ => false

/-- The events of `process_connection` after a successful dial (lines
129-155), given the number of completion signals that ever arrive on
`ack`. -/
def session_events (acks : Nat) : List SEvent :=
  [.startTextLogger, .startBinFromLogger, .startBinToLogger, .logConnected,
   .launchDirection true, .launchDirection false] ++
    (if 2 ≤ acks then
      [.recvAck, .recvAck, .logDuration, .stopText, .stopBinFrom, .stopBinTo]
    else if 1 ≤ acks then [.recvAck] else [])

inductive DialOutcome where
  | fails
  | succeeds
deriving DecidableEq

/-- Outcome of one `process_connection` goroutine: whether the
"Unable to connect" line was printed to operator output, the session
events performed, and whether the goroutine panicked (an unrecovered
panic in any goroutine terminates the whole Go process). -/
structure PCResult where
  dialErrorPrinted : Bool
  events : List SEvent
  panicked : Bool
deriving DecidableEq

/-- The function `process_connection` (lines 120-156).  When `net.Dial` fails the code
prints the error but does not return (line 122-124 has no `return`); it
then evaluates `remote.LocalAddr()` on the nil `remote` interface, which
panics with a nil-pointer dereference before any logger goroutine is
started, so no log file is created and the process dies.  On success the
straight-line session body runs. -/
def process_connection (d : DialOutcome) (acks : Nat) : PCResult :=
  match d with
  | .fails => ⟨true, [], true⟩
  | .succeeds => ⟨false, session_events acks, false⟩

/-- A Go process whose goroutine panicked is dead: its accept loop cannot
keep running. -/
def listener_keeps_accepting (r : PCResult) : Bool :=
  !r.panicked

/-! ## Buffer aliasing in `pass_through` (gotcpspy.go lines 91, 103-104)

`b := make([]byte, 10240)` is allocated once per direction; every
`c.from.Read(b)` overwrites its head, and `c.binary_logger <- b[:n]`
enqueues a slice header aliasing that same buffer — no copy is made.  The
binary sink's `f.Write` for chunk `k` may still be executing when the
producer performs read `k + 1` (the producer only blocks again at the
rendezvous for chunk `k + 1`), so the bytes the sink writes for chunk `k`
can be those left by read `k + 1`. -/

def BUFFER_SIZE : Nat := 10240

/-- Effect of `Read` into the shared buffer: the first `data.length`
bytes are replaced, the tail is untouched. -/
def writeInto (buf data : List Byte) : List Byte :=
  data ++ buf.drop data.length

/-- Buffer contents after a sequence of reads into the initially
zeroed 10240-byte buffer. -/
def bufferAfter (datas : List (List Byte)) : List Byte :=
  datas.foldl writeInto (List.replicate BUFFER_SIZE 0)

/-- What the binary sink's `f.Write` for chunk `k` observes under the
schedule in which it runs just after read `k + 1` has landed in the
shared buffer: the first `n_k` bytes of the buffer as mutated by the
first `k + 2` reads. -/
def delayedChunk (datas : List (List Byte)) (k : Nat) : List Byte :=
  (bufferAfter (datas.take (k + 2))).take (datas.getD k []).length

/-- The chunk values the binary log file receives under that delayed
schedule, one per enqueued chunk. -/
def delayedBinaryLog (datas : List (List Byte)) : List (List Byte) :=
  (List.range datas.length).map (delayedChunk datas)

/-! ## Command line: `main` (gotcpspy.go lines 160-175)

Three string flags are defined: `host`, `port`, `listen_port` (lines
27-31).  `flag.Parse()` uses the default `ExitOnError` command line: an
undefined flag, bad flag syntax or a missing value makes the flag package
print its own error and usage and call `os.Exit(2)`; an undefined `-h` or
`-help` prints usage and exits 0.  Only when parsing succeeds does `main`
check `flag.NFlag() != 3` (the number of distinct flags actually set) and
on mismatch print its usage line and `os.Exit(1)`.  `net.Listen` is only
reached past both checks.  The scan below embeds the flag package's
command-line scan for string-valued flags: an argument not starting with
`-` (or a bare `-`), or the terminator `--`, stops flag parsing. -/

def flag_defined (name : String) : Bool :=
  name == "host" || name == "port" || name == "listen_port"

/-- Split a flag body at its first `=`, as `flag` does when scanning
`-name=value`. -/
def splitEq : List Char → List Char × Option (List Char)
  | [] => ([], none)
  | c :: rest =>
    if c == '=' then ([], some rest)
    else
      let r := splitEq rest
      (c :: r.1, r.2)

inductive ParseOutcome where
  | ok (seen : List String)
  | errBad
  | errHelp
deriving DecidableEq

/-- The flag package's argument scan (`flag.Parse` with the three string
flags above), accumulating the names of the flags set.  `errBad` is any
parse error under `ExitOnError` (exit status 2); `errHelp` is an
undefined `-h`/`-help` (exit status 0). -/
def parseFlagsAux : List String → List String → ParseOutcome
  | seen, [] => .ok seen
  | seen, a :: rest =>
    match a.data with
    | '-' :: c2 :: restc =>
      if c2 == '-' && restc == [] then .ok seen
      else
        let body := if c2 == '-' then restc else c2 :: restc
        match body with
        | [] => .errBad
        | b :: _ =>
          if b == '-' || b == '=' then .errBad
          else
            let nv := splitEq body
            let nameS := String.mk nv.1
            if flag_defined nameS then
              match nv.2 with
              | some _ => parseFlagsAux (nameS :: seen) rest
              | none =>
                match rest with
                | [] => .errBad
                | _ :: rest2 => parseFlagsAux (nameS :: seen) rest2
            else
              if nameS == "help" || nameS == "h" then .errHelp else .errBad
    | _ => .ok seen

inductive MainOutcome where
  | usage_exit1
  | flag_error_exit2
  | help_exit0
  | proceed
deriving DecidableEq

/-- The part of `main` (lines 162-167) that decides between a usage
error and proceeding to start the listener. -/
def main_flag_check (args : List String) : MainOutcome :=
  match parseFlagsAux [] args with
  | .errBad => .flag_error_exit2
  | .errHelp => .help_exit0
  | .ok seen => if seen.dedup.length ≠ 3 then .usage_exit1 else .proceed

/-- The listener socket (`net.Listen`, line 171) is opened only when `main_flag_check`
proceeds. -/
def starts_listener : MainOutcome → Bool
  | .proceed => true
  | _ => false

/-- Whether an invocation sets exactly the three required options: its
flags parse and the distinct flags set number exactly three. -/
def sets_exactly_three (args : List String) : Bool :=
  match parseFlagsAux [] args with
  | .ok seen => seen.dedup.length == 3
  | _ => false

/-! ## Helper lemmas about the relay loop -/

theorem writePayloads_loop (reads : List ReadResult) :
    ∀ off p, writePayloads (pass_through_loop reads off p) = relayedChunks reads := by
  induction reads with
  | nil => intro off p; rfl
  | cons r rest ih =>
    intro off p
    cases r with
    | fail => rfl
    | ok b =>
      have ih1 := ih off p
      have ih2 := ih (off + b.length) (p + 1)
      unfold writePayloads at ih1 ih2
      by_cases hb : 0 < b.length <;>
        simp [pass_through_loop, relayedChunks, hb, writePayloads, ih1, ih2]

theorem writePayloads_pass_through (reads : List ReadResult) :
    writePayloads (pass_through reads) = relayedChunks reads := by
  unfold pass_through writePayloads
  rw [List.filterMap_append]
  have h := writePayloads_loop reads 0 0
  unfold writePayloads at h
  rw [h]
  by_cases hf : reads.any ReadResult.isFail <;> simp [hf]

theorem receivedRecords_loop (reads : List ReadResult) :
    ∀ off p, receivedRecords (pass_through_loop reads off p) = recsAux reads off p := by
  induction reads with
  | nil => intro off p; rfl
  | cons r rest ih =>
    intro off p
    cases r with
    | fail => rfl
    | ok b =>
      have ih1 := ih off p
      have ih2 := ih (off + b.length) (p + 1)
      unfold receivedRecords at ih1 ih2
      by_cases hb : 0 < b.length <;>
        simp [pass_through_loop, recsAux, hb, receivedRecords, ih1, ih2]

theorem receivedRecords_pass_through (reads : List ReadResult) :
    receivedRecords (pass_through reads) = recsAux reads 0 0 := by
  unfold pass_through receivedRecords
  rw [List.filterMap_append]
  have h := receivedRecords_loop reads 0 0
  unfold receivedRecords at h
  rw [h]
  by_cases hf : reads.any ReadResult.isFail <;> simp [hf]

theorem sentPackets_loop (reads : List ReadResult) :
    ∀ off p, sentPackets (pass_through_loop reads off p) = (recsAux reads off p).map RecvRec.packet := by
  induction reads with
  | nil => intro off p; rfl
  | cons r rest ih =>
    intro off p
    cases r with
    | fail => rfl
    | ok b =>
      have ih1 := ih off p
      have ih2 := ih (off + b.length) (p + 1)
      unfold sentPackets at ih1 ih2
      by_cases hb : 0 < b.length <;>
        simp [pass_through_loop, recsAux, hb, sentPackets, ih1, ih2]

theorem sentPackets_pass_through (reads : List ReadResult) :
    sentPackets (pass_through reads) = (recsAux reads 0 0).map RecvRec.packet := by
  unfold pass_through sentPackets
  rw [List.filterMap_append]
  have h := sentPackets_loop reads 0 0
  unfold sentPackets at h
  rw [h]
  by_cases hf : reads.any ReadResult.isFail <;> simp [hf]

theorem recsAux_map_packet (reads : List ReadResult) :
    ∀ off p, (recsAux reads off p).map RecvRec.packet
      = List.range' p (recsAux reads off p).length := by
  induction reads with
  | nil => intro off p; rfl
  | cons r rest ih =>
    intro off p
    cases r with
    | fail => rfl
    | ok b =>
      by_cases hb : 0 < b.length <;>
        simp [recsAux, hb, ih off p, ih (off + b.length) (p + 1), List.range'_succ]

theorem recsAux_map_offset (reads : List ReadResult) :
    ∀ off p, (recsAux reads off p).map RecvRec.offset
      = offsetsFrom ((recsAux reads off p).map RecvRec.nbytes) off := by
  induction reads with
  | nil => intro off p; rfl
  | cons r rest ih =>
    intro off p
    cases r with
    | fail => rfl
    | ok b =>
      by_cases hb : 0 < b.length <;>
        simp [recsAux, hb, ih off p, ih (off + b.length) (p + 1), offsetsFrom]

theorem recsAux_nbytes_pos (reads : List ReadResult) :
    ∀ off p, ((recsAux reads off p).map RecvRec.nbytes).all (fun n => decide (0 < n)) = true := by
  induction reads with
  | nil => intro off p; rfl
  | cons r rest ih =>
    intro off p
    cases r with
    | fail => rfl
    | ok b =>
      by_cases hb : 0 < b.length <;>
        simp [recsAux, hb, ih off p, ih (off + b.length) (p + 1)]

theorem chain_lt_range' (n : Nat) : ∀ s, List.Chain' (· < ·) (List.range' s n) := by
  induction n with
  | zero => intro s; exact List.chain'_nil
  | succ m ih =>
    intro s
    rw [List.range'_succ, List.chain'_cons']
    refine ⟨?_, ih (s + 1)⟩
    intro y hy
    cases m with
    | zero => simp at hy
    | succ k =>
      rw [List.range'_succ] at hy
      simp at hy
      omega

theorem chain_lt_offsetsFrom (ns : List Nat) :
    ∀ off, ns.all (fun n => decide (0 < n)) = true →
      List.Chain' (· < ·) (offsetsFrom ns off) := by
  induction ns with
  | nil => intro off _; exact List.chain'_nil
  | cons n rest ih =>
    intro off hall
    rw [List.all_cons, Bool.and_eq_true, decide_eq_true_eq] at hall
    obtain ⟨hn, htail⟩ := hall
    cases rest with
    | nil => simp [offsetsFrom]
    | cons m rest2 =>
      rw [offsetsFrom, offsetsFrom, List.chain'_cons]
      refine ⟨by omega, ?_⟩
      rw [← offsetsFrom]
      exact ih (off + n) htail

/-! ## Helper lemmas about the log sink -/

theorem logger_events_struct (chunks : List (List Byte)) :
    logger_loop_events chunks
      = ((nonemptyPrefixChunks chunks).map fun b => [FEvent.fwrite b, FEvent.fsync]).flatten
        ++ (if chunks.any (fun b => b.length == 0) then [FEvent.fclose] else []) := by
  induction chunks with
  | nil => rfl
  | cons b rest ih =>
    unfold nonemptyPrefixChunks at ih
    by_cases hb : b.length = 0 <;>
      simp [logger_loop_events, nonemptyPrefixChunks, hb, ih]

theorem fileWrites_logger (chunks : List (List Byte)) :
    fileWrites (logger_loop_events chunks) = nonemptyPrefixChunks chunks := by
  induction chunks with
  | nil => rfl
  | cons b rest ih =>
    unfold fileWrites nonemptyPrefixChunks at ih
    by_cases hb : b.length = 0 <;>
      simp [logger_loop_events, nonemptyPrefixChunks, fileWrites, hb, ih]

theorem fclose_mem (chunks : List (List Byte)) :
    FEvent.fclose ∈ logger_loop_events chunks ↔ chunks.any (fun b => b.length == 0) = true := by
  induction chunks with
  | nil => simp [logger_loop_events]
  | cons b rest ih =>
    by_cases hb : b.length = 0 <;> simp [logger_loop_events, hb, ih]

/-! ## Helper lemma about completion signalling -/

theorem ack_not_in_loop (reads : List ReadResult) :
    ∀ off p, PTEvent.ackSignal ∉ pass_through_loop reads off p := by
  induction reads with
  | nil => intro off p h; cases h
  | cons r rest ih =>
    intro off p
    cases r with
    | fail => simp [pass_through_loop]
    | ok b =>
      by_cases hb : 0 < b.length <;>
        simp [pass_through_loop, hb, ih off p, ih (off + b.length) (p + 1)]

theorem disconnect_mem_loop (reads : List ReadResult) :
    ∀ off p, (PTEvent.logDisconnected ∈ pass_through_loop reads off p ↔
      reads.any ReadResult.isFail = true) := by
  induction reads with
  | nil => intro off p; simp [pass_through_loop]
  | cons r rest ih =>
    intro off p
    cases r with
    | fail => simp [pass_through_loop, ReadResult.isFail]
    | ok b =>
      by_cases hb : 0 < b.length <;>
        simp [pass_through_loop, hb, ReadResult.isFail, ih off p,
          ih (off + b.length) (p + 1)]

/-! ## Claim theorems -/

/-- Claim C2: for every chunk of `n > 0` bytes read by a relay direction,
exactly those `n` bytes are written verbatim to the opposite connection
(the sequence of written payloads equals the sequence of nonempty chunks
read, in order), and the whole output byte stream of a direction equals
its input byte stream. -/
theorem c2_byte_transparency (reads : List ReadResult) :
    writePayloads (pass_through reads) = relayedChunks reads ∧
    (writePayloads (pass_through reads)).flatten = readStream reads := by
  refine ⟨writePayloads_pass_through reads, ?_⟩
  rw [writePayloads_pass_through reads, readStream]

/-- Claim C5: in the "Received" lines of one relay direction, the packet
counters are `0, 1, 2, ...` (hence strictly increasing), the logged offset
before each chunk is the running total of the previously relayed bytes
(`offsetsFrom` of the chunk lengths from 0, so the offset before chunk
`k + 1` is the offset before chunk `k` plus chunk `k`'s length), every
logged chunk length is positive, and both logged sequences are strictly
increasing. -/
theorem c5_counters_and_offsets (reads : List ReadResult) :
    (receivedRecords (pass_through reads)).map RecvRec.packet
      = List.range (receivedRecords (pass_through reads)).length ∧
    (receivedRecords (pass_through reads)).map RecvRec.offset
      = offsetsFrom ((receivedRecords (pass_through reads)).map RecvRec.nbytes) 0 ∧
    ((receivedRecords (pass_through reads)).map RecvRec.nbytes).all
      (fun n => decide (0 < n)) = true ∧
    List.Chain' (· < ·) ((receivedRecords (pass_through reads)).map RecvRec.packet) ∧
    List.Chain' (· < ·) ((receivedRecords (pass_through reads)).map RecvRec.offset) := by
  rw [receivedRecords_pass_through]
  have hp := recsAux_map_packet reads 0 0
  have ho := recsAux_map_offset reads 0 0
  have hn := recsAux_nbytes_pos reads 0 0
  refine ⟨?_, ho, hn, ?_, ?_⟩
  · rw [hp, List.range_eq_range']
  · rw [hp]; exact chain_lt_range' _ 0
  · rw [ho]; exact chain_lt_offsetsFrom _ 0 hn

/-- Claim C8: a read of exactly zero bytes with no error emits no events
at all (no logging, no write to the opposite connection) and continues
the loop with the packet counter and offset unchanged; only a failing
read exits the loop, logging the disconnect line. -/
theorem c8_zero_byte_read :
    (∀ (rest : List ReadResult) (off p : Nat),
      pass_through_loop (.ok [] :: rest) off p = pass_through_loop rest off p) ∧
    (∀ reads : List ReadResult, pass_through (.ok [] :: reads) = pass_through reads) ∧
    (∀ (rest : List ReadResult) (off p : Nat),
      pass_through_loop (.fail :: rest) off p = [.logDisconnected]) ∧
    (∀ reads : List ReadResult,
      PTEvent.logDisconnected ∈ pass_through reads ↔
        reads.any ReadResult.isFail = true) := by
  refine ⟨?_, ?_, ?_, ?_⟩
  · intro rest off p; simp [pass_through_loop]
  · intro reads; simp [pass_through, pass_through_loop, ReadResult.isFail]
  · intro rest off p; rfl
  · intro reads
    unfold pass_through
    rw [List.mem_append]
    by_cases hf : reads.any ReadResult.isFail <;>
      simp [hf, disconnect_mem_loop reads 0 0]

/-- Claim C10: the "Sent" lines of one relay direction carry exactly the
packet numbers of the "Received" lines, chunk by chunk in order (the
counter is incremented only after the "Sent" line), and the packet
numbers are `0, 1, 2, ...`, so the first chunk's counter is 0. -/
theorem c10_sent_packet_numbers (reads : List ReadResult) :
    sentPackets (pass_through reads)
      = (receivedRecords (pass_through reads)).map RecvRec.packet ∧
    (receivedRecords (pass_through reads)).map RecvRec.packet
      = List.range (receivedRecords (pass_through reads)).length := by
  rw [receivedRecords_pass_through, sentPackets_pass_through]
  refine ⟨rfl, ?_⟩
  rw [recsAux_map_packet reads 0 0, List.range_eq_range']

/-- Claim C6: a log sink writes exactly the nonempty chunks received
before the first zero-length chunk, in order, each write immediately
followed by a durability flush; a zero-length chunk is never written and
closes the file, and the file is closed exactly when some zero-length
chunk arrives. -/
theorem c6_sink_sentinel (chunks : List (List Byte)) :
    logger_loop_events chunks
      = ((nonemptyPrefixChunks chunks).map fun b => [FEvent.fwrite b, FEvent.fsync]).flatten
        ++ (if chunks.any (fun b => b.length == 0) then [FEvent.fclose] else []) ∧
    fileWrites (logger_loop_events chunks) = nonemptyPrefixChunks chunks ∧
    (fileWrites (logger_loop_events chunks)).all (fun b => !(b.length == 0)) = true ∧
    (FEvent.fclose ∈ logger_loop_events chunks ↔
      chunks.any (fun b => b.length == 0) = true) := by
  refine ⟨logger_events_struct chunks, fileWrites_logger chunks, ?_, fclose_mem chunks⟩
  rw [fileWrites_logger chunks]
  apply List.all_eq_true.mpr
  intro b hb
  unfold nonemptyPrefixChunks at hb
  have h2 := List.mem_takeWhile_imp hb
  exact h2

/-- Claim C7: a session that dials successfully launches exactly two
relay directions; the duration line is in its trace exactly when both
completion signals arrive; the three stop sentinels are sent exactly
when both signals arrive, and never before the duration line, which is
itself preceded by both completion receives; and each relay direction
signals completion exactly once, upon termination. -/
theorem c7_session_completion (acks : Nat) (reads : List ReadResult) :
    (session_events acks).countP SEvent.isLaunch = 2 ∧
    (SEvent.logDuration ∈ session_events acks ↔ 2 ≤ acks) ∧
    ((session_events acks).filter SEvent.isStop
      = if 2 ≤ acks then [SEvent.stopText, SEvent.stopBinFrom, SEvent.stopBinTo] else []) ∧
    ((session_events acks).takeWhile (fun e => !e.isDuration)).countP SEvent.isStop = 0 ∧
    ((session_events acks).takeWhile (fun e => !e.isDuration)).count SEvent.recvAck
      = min acks 2 ∧
    (pass_through reads).count PTEvent.ackSignal
      = (if reads.any ReadResult.isFail then 1 else 0) := by
  have hack : (pass_through reads).count PTEvent.ackSignal
      = (if reads.any ReadResult.isFail then 1 else 0) := by
    unfold pass_through
    rw [List.count_append,
      List.count_eq_zero.mpr (ack_not_in_loop reads 0 0)]
    by_cases hf : reads.any ReadResult.isFail <;> simp [hf]
  rcases acks with _ | a
  · exact ⟨by decide, by decide, by decide, by decide, by decide, hack⟩
  rcases a with _ | n
  · exact ⟨by decide, by decide, by decide, by decide, by decide, hack⟩
  · have h2 : 2 ≤ n + 2 := Nat.le_add_left 2 n
    refine ⟨?_, ?_, ?_, ?_, ?_, hack⟩ <;>
      simp [session_events, h2, List.count_cons, List.countP_cons,
        SEvent.isLaunch, SEvent.isStop, SEvent.isDuration, Nat.min_eq_right h2]

/-- Claim C1 concerns a code bug: when the outbound dial fails,
`process_connection` prints the failure to operator output but, lacking a
`return`, goes on to dereference the nil outbound connection: it panics
before any log sink is created (so no log file, no relay), and the panic
kills the whole Go process, so the listener does not keep accepting —
contradicting the claim's expectation that the listener continues. -/
theorem c1_dial_failure_panics (acks : Nat) :
    (process_connection .fails acks).dialErrorPrinted = true ∧
    (process_connection .fails acks).events = [] ∧
    (process_connection .fails acks).panicked = true ∧
    listener_keeps_accepting (process_connection .fails acks) = false :=
  ⟨rfl, rfl, rfl, rfl⟩

/-- Claim C4 concerns a code bug: every chunk enqueued to the binary sink
is the slice `b[:n]` of the single 10240-byte buffer that the next
`Read` overwrites, so the producer mutates the chunk's bytes after the
enqueue.  Concretely, for a direction that reads the chunk `[1]` and then
the chunk `[2]`, under the schedule where the sink's file write for a
chunk runs after the following read (which the unbuffered channels
permit), the binary log receives `[2]` twice, and its concatenation
differs from the bytes the direction actually relayed. -/
theorem c4_binary_log_aliasing :
    delayedBinaryLog [[1], [2]] = [[2], [2]] ∧
    binPayloads (pass_through [.ok [1], .ok [2], .fail]) = [[1], [2]] ∧
    readStream [.ok [1], .ok [2], .fail] = [1, 2] ∧
    (decide ((delayedBinaryLog [[1], [2]]).flatten
      = (binPayloads (pass_through [.ok [1], .ok [2], .fail])).flatten)) = false := by
  refine ⟨by decide, by decide, by decide, by decide⟩

/-- Claim C3 is refuted as stated: each of the three loggers derives the
file-name timestamp from its own `time.Now()` call, not from the
session's start time.  On the code-permitted schedule where the binary
logger's goroutine runs one second after the session started, the
timestamp embedded in its file name differs from the formatted session
start time (and hence also from a text-log name generated at the start
instant). -/
theorem c3_stamp_not_session_start :
    (binNameStamp (binary_log_name ⟨2015, 11, 1, 12, 0, 1⟩ 1 "peer")
      == format_time ⟨2015, 11, 1, 12, 0, 0⟩) = false ∧
    (textNameStamp (connection_log_name ⟨2015, 11, 1, 12, 0, 0⟩ 1 "a" "b")
      == binNameStamp (binary_log_name ⟨2015, 11, 1, 12, 0, 1⟩ 1 "a")) = false := by
  refine ⟨by decide, by decide⟩

theorem repr_len_le_two (n : Nat) (h : n < 100) : (Nat.repr n).length ≤ 2 := by
  refine Nat.repr_length n 2 (by decide) ?_
  have hp : (10 : Nat) ^ 2 = 100 := by norm_num
  omega

theorem repr_len_le_four (n : Nat) (h : n < 10000) : (Nat.repr n).length ≤ 4 := by
  refine Nat.repr_length n 4 (by decide) ?_
  have hp : (10 : Nat) ^ 4 = 10000 := by norm_num
  omega

theorem zeroPad_data_length (w n : Nat) (h : (Nat.repr n).length ≤ w) :
    (zeroPad w n).data.length = w := by
  unfold zeroPad
  rw [String.data_append, List.length_append]
  show (List.replicate (w - (toString n).length) '0').length + (toString n).data.length = w
  rw [List.length_replicate]
  have h1 : (toString n).data.length = (Nat.repr n).length := rfl
  have h2 : (toString n).length = (Nat.repr n).length := rfl
  rw [h1, h2]
  omega

theorem format_time_data_length (t : GoTime) (hy : t.year < 10000)
    (hmo : t.month < 100) (hd : t.day < 100) (hh : t.hour < 100)
    (hmi : t.minute < 100) (hs : t.second < 100) :
    (format_time t).data.length = 19 := by
  unfold format_time
  simp only [String.data_append, List.length_append,
    zeroPad_data_length 4 t.year (repr_len_le_four t.year hy),
    zeroPad_data_length 2 t.month (repr_len_le_two t.month hmo),
    zeroPad_data_length 2 t.day (repr_len_le_two t.day hd),
    zeroPad_data_length 2 t.hour (repr_len_le_two t.hour hh),
    zeroPad_data_length 2 t.minute (repr_len_le_two t.minute hmi),
    zeroPad_data_length 2 t.second (repr_len_le_two t.second hs)]
  decide

theorem textNameStamp_name (t : GoTime) (conn_n : Nat) (l r : String)
    (h19 : (format_time t).data.length = 19) :
    textNameStamp (connection_log_name t conn_n l r) = format_time t := by
  unfold textNameStamp connection_log_name
  simp only [String.data_append, List.append_assoc]
  simp only [List.cons_append, List.nil_append, List.drop_succ_cons, List.drop_zero]
  rw [List.take_left' h19]

theorem binNameStamp_name (t : GoTime) (conn_n : Nat) (peer : String)
    (h19 : (format_time t).data.length = 19) :
    binNameStamp (binary_log_name t conn_n peer) = format_time t := by
  unfold binNameStamp binary_log_name
  simp only [String.data_append, List.append_assoc]
  simp only [List.cons_append, List.nil_append, List.drop_succ_cons, List.drop_zero]
  rw [List.take_left' h19]

/-- Claim C3, amended: each of the three log-file names of a session
embeds, at the fixed position after its literal prefix, the formatted
timestamp of the instant observed by that logger's own `time.Now()`
call — not a timestamp taken from the session start.  In particular all
three names embed the same timestamp only when the three calls observe
the same formatted second. -/
theorem c3_stamp_is_own_now (t : GoTime) (conn_n : Nat) (l r peer : String)
    (hy : t.year < 10000) (hmo : t.month < 100) (hd : t.day < 100)
    (hh : t.hour < 100) (hmi : t.minute < 100) (hs : t.second < 100) :
    textNameStamp (connection_log_name t conn_n l r) = format_time t ∧
    binNameStamp (binary_log_name t conn_n peer) = format_time t := by
  have h19 := format_time_data_length t hy hmo hd hh hmi hs
  exact ⟨textNameStamp_name t conn_n l r h19, binNameStamp_name t conn_n peer h19⟩

/-- Witness for the amended claim C3 at a concrete session time. -/
theorem c3_stamp_is_own_now_witness :
    (2015 < 10000 ∧ 11 < 100) ∧
    textNameStamp (connection_log_name ⟨2015, 11, 1, 12, 0, 0⟩ 7 "a" "b")
      = format_time ⟨2015, 11, 1, 12, 0, 0⟩ :=
  ⟨⟨by decide, by decide⟩,
    (c3_stamp_is_own_now ⟨2015, 11, 1, 12, 0, 0⟩ 7 "a" "b" "c" (by decide) (by decide)
      (by decide) (by decide) (by decide) (by decide)).1⟩

/-- Claim C9 is refuted as stated: an invocation that sets the three
required options plus an extra, undefined option is rejected by the flag
package itself, which exits with status 2, not by the usage check that
exits with status 1. -/
theorem c9_extra_flag_exits_2 :
    sets_exactly_three ["-host", "h", "-port", "1", "-listen_port", "2", "-x", "v"] = false ∧
    main_flag_check ["-host", "h", "-port", "1", "-listen_port", "2", "-x", "v"]
      = .flag_error_exit2 ∧
    (decide (main_flag_check ["-host", "h", "-port", "1", "-listen_port", "2", "-x", "v"]
      = .usage_exit1)) = false := by
  refine ⟨by decide, by decide, by decide⟩

/-- Claim C9, amended: an invocation whose arguments parse under the
three defined flags but set fewer than all three of them prints the
usage text and exits with status 1; an argument naming an option outside
the three defined ones makes the flag package itself report the error
and exit with status 2; in both cases the listener is never started. -/
theorem c9_usage_behavior (args : List String) :
    (main_flag_check args = .usage_exit1 ↔
      ∃ seen, parseFlagsAux [] args = .ok seen ∧ seen.dedup.length ≠ 3) ∧
    (main_flag_check args = .flag_error_exit2 ↔ parseFlagsAux [] args = .errBad) ∧
    starts_listener MainOutcome.usage_exit1 = false ∧
    starts_listener MainOutcome.flag_error_exit2 = false := by
  refine ⟨?_, ?_, rfl, rfl⟩ <;>
  · unfold main_flag_check
    cases h : parseFlagsAux [] args with
    | ok seen =>
      by_cases h3 : seen.dedup.length = 3 <;> simp [h3]
    | errBad => simp
    | errHelp => simp

end GoTcpSpy
